import Mathlib

set_option autoImplicit false
set_option maxHeartbeats 1600000
set_option maxRecDepth 8000

/-!
# Verification of `track_process_resources.py`

A shallow embedding of the sampling-and-rate-aggregation core of
`track_process_resources.py`. Python floats are modelled by `ℚ`
(all arithmetic in the program is exact on the inputs we consider);
the `float("inf")` / `float("-inf")` sentinels of `MetricAccumulator`
are modelled by `⊤ : WithTop ℚ` and `⊥ : WithBot ℚ`; `None` is `Option`.
Reads of `/proc` are modelled by per-pass oracles (`Env`), and the two
Python dicts `stats_by_pid` / `prev_by_pid` by association lists.
-/

/-- Embeds the `MetricAccumulator` dataclass: running min/max/total/count
over a stream of optional values. -/
structure MetricAccumulator where
  minimum : WithTop ℚ := ⊤
  maximum : WithBot ℚ := ⊥
  total : ℚ := 0
  count : ℕ := 0
  deriving DecidableEq

/-- Embeds `MetricAccumulator.add`: a `none` value is ignored, a present
value updates min/max by comparison and is accumulated into total/count. -/
def MetricAccumulator.add (acc : MetricAccumulator) (value : Option ℚ) : MetricAccumulator :=
  match value with
  | none => acc
  | some v =>
    { minimum := if (v : WithTop ℚ) < acc.minimum then (v : WithTop ℚ) else acc.minimum
      maximum := if acc.maximum < (v : WithBot ℚ) then (v : WithBot ℚ) else acc.maximum
      total := acc.total + v
      count := acc.count + 1 }

/-- Embeds `MetricAccumulator.as_tuple`: `(0, 0, 0)` when no value was ever
added, else `(minimum, maximum, total / count)`. -/
def MetricAccumulator.as_tuple (acc : MetricAccumulator) : WithTop ℚ × WithBot ℚ × ℚ :=
  if acc.count = 0 then (((0 : ℚ) : WithTop ℚ), ((0 : ℚ) : WithBot ℚ), (0 : ℚ))
  else (acc.minimum, acc.maximum, acc.total / (acc.count : ℚ))

/-- Feeding a whole stream of optional values into an accumulator. -/
def addList (acc : MetricAccumulator) (vs : List (Option ℚ)) : MetricAccumulator :=
  vs.foldl MetricAccumulator.add acc

/-- The present (non-`none`) values of a stream. -/
def presentVals (vs : List (Option ℚ)) : List ℚ :=
  vs.filterMap id

theorem presentVals_nil : presentVals [] = [] := rfl

theorem presentVals_cons_none (vs : List (Option ℚ)) :
    presentVals (none :: vs) = presentVals vs := rfl

theorem presentVals_cons_some (v : ℚ) (vs : List (Option ℚ)) :
    presentVals (some v :: vs) = v :: presentVals vs := rfl

theorem addList_nil (acc : MetricAccumulator) : addList acc [] = acc := rfl

theorem addList_cons (acc : MetricAccumulator) (v : Option ℚ) (vs : List (Option ℚ)) :
    addList acc (v :: vs) = addList (acc.add v) vs := rfl

theorem add_none (acc : MetricAccumulator) : acc.add none = acc := rfl

theorem add_some_minimum (acc : MetricAccumulator) (v : ℚ) :
    (acc.add (some v)).minimum = (v : WithTop ℚ) ⊓ acc.minimum := by
  show (if (v : WithTop ℚ) < acc.minimum then (v : WithTop ℚ) else acc.minimum) = _
  rcases lt_or_le ((v : WithTop ℚ)) acc.minimum with h | h
  · rw [if_pos h, inf_eq_left.mpr h.le]
  · rw [if_neg (not_lt.mpr h), inf_eq_right.mpr h]

theorem add_some_maximum (acc : MetricAccumulator) (v : ℚ) :
    (acc.add (some v)).maximum = (v : WithBot ℚ) ⊔ acc.maximum := by
  show (if acc.maximum < (v : WithBot ℚ) then (v : WithBot ℚ) else acc.maximum) = _
  rcases lt_or_le acc.maximum ((v : WithBot ℚ)) with h | h
  · rw [if_pos h, sup_eq_left.mpr h.le]
  · rw [if_neg (not_lt.mpr h), sup_eq_right.mpr h]

theorem add_some_total (acc : MetricAccumulator) (v : ℚ) :
    (acc.add (some v)).total = acc.total + v := rfl

theorem add_some_count (acc : MetricAccumulator) (v : ℚ) :
    (acc.add (some v)).count = acc.count + 1 := rfl

/-- The infimum of a list of rationals inside `WithTop ℚ`, starting from `⊤`. -/
def listInf (l : List ℚ) : WithTop ℚ :=
  l.foldr (fun (v : ℚ) (m : WithTop ℚ) => (v : WithTop ℚ) ⊓ m) ⊤

/-- The supremum of a list of rationals inside `WithBot ℚ`, starting from `⊥`. -/
def listSup (l : List ℚ) : WithBot ℚ :=
  l.foldr (fun (v : ℚ) (m : WithBot ℚ) => (v : WithBot ℚ) ⊔ m) ⊥

theorem listInf_nil : listInf [] = ⊤ := rfl

theorem listInf_cons (v : ℚ) (l : List ℚ) : listInf (v :: l) = (v : WithTop ℚ) ⊓ listInf l := rfl

theorem listSup_nil : listSup [] = ⊥ := rfl

theorem listSup_cons (v : ℚ) (l : List ℚ) : listSup (v :: l) = (v : WithBot ℚ) ⊔ listSup l := rfl

theorem listInf_le {v : ℚ} {l : List ℚ} (h : v ∈ l) : listInf l ≤ (v : WithTop ℚ) := by
  induction l with
  | nil => cases h
  | cons hd tl ih =>
    rw [listInf_cons]
    rcases List.mem_cons.mp h with rfl | h2
    · exact inf_le_left
    · exact le_trans inf_le_right (ih h2)

theorem le_listSup {v : ℚ} {l : List ℚ} (h : v ∈ l) : (v : WithBot ℚ) ≤ listSup l := by
  induction l with
  | nil => cases h
  | cons hd tl ih =>
    rw [listSup_cons]
    rcases List.mem_cons.mp h with rfl | h2
    · exact le_sup_left
    · exact le_trans (ih h2) le_sup_right

/-- The minimum after a stream is the old minimum met with the infimum
of the present values. -/
theorem addList_minimum (vs : List (Option ℚ)) (acc : MetricAccumulator) :
    (addList acc vs).minimum = acc.minimum ⊓ listInf (presentVals vs) := by
  induction vs generalizing acc with
  | nil => rw [addList_nil, presentVals_nil, listInf_nil, inf_top_eq]
  | cons hd tl ih =>
    cases hd with
    | none =>
      rw [addList_cons, add_none, ih, presentVals_cons_none]
    | some v =>
      rw [addList_cons, ih, add_some_minimum, presentVals_cons_some, listInf_cons]
      rw [← inf_assoc, inf_comm ((v : WithTop ℚ)) acc.minimum, inf_assoc]

/-- The maximum after a stream is the old maximum joined with the supremum
of the present values. -/
theorem addList_maximum (vs : List (Option ℚ)) (acc : MetricAccumulator) :
    (addList acc vs).maximum = acc.maximum ⊔ listSup (presentVals vs) := by
  induction vs generalizing acc with
  | nil => rw [addList_nil, presentVals_nil, listSup_nil, sup_bot_eq]
  | cons hd tl ih =>
    cases hd with
    | none =>
      rw [addList_cons, add_none, ih, presentVals_cons_none]
    | some v =>
      rw [addList_cons, ih, add_some_maximum, presentVals_cons_some, listSup_cons]
      rw [← sup_assoc, sup_comm ((v : WithBot ℚ)) acc.maximum, sup_assoc]

theorem listInf_perm {l1 l2 : List ℚ} (h : l1.Perm l2) : listInf l1 = listInf l2 := by
  haveI lcomm : LeftCommutative (fun (v : ℚ) (m : WithTop ℚ) => (v : WithTop ℚ) ⊓ m) :=
    ⟨fun a b c => by rw [← inf_assoc, inf_comm ((a : WithTop ℚ)) ((b : WithTop ℚ)), inf_assoc]⟩
  unfold listInf
  apply List.Perm.foldr_eq h

theorem listSup_perm {l1 l2 : List ℚ} (h : l1.Perm l2) : listSup l1 = listSup l2 := by
  haveI lcomm : LeftCommutative (fun (v : ℚ) (m : WithBot ℚ) => (v : WithBot ℚ) ⊔ m) :=
    ⟨fun a b c => by rw [← sup_assoc, sup_comm ((a : WithBot ℚ)) ((b : WithBot ℚ)), sup_assoc]⟩
  unfold listSup
  apply List.Perm.foldr_eq h

theorem addList_total (vs : List (Option ℚ)) (acc : MetricAccumulator) :
    (addList acc vs).total = acc.total + (presentVals vs).sum := by
  induction vs generalizing acc with
  | nil => simp [addList, presentVals]
  | cons hd tl ih =>
    cases hd with
    | none => rw [addList_cons, add_none, ih, presentVals_cons_none]
    | some v =>
      rw [addList_cons, ih, add_some_total, presentVals_cons_some, List.sum_cons]
      ring

theorem addList_count (vs : List (Option ℚ)) (acc : MetricAccumulator) :
    (addList acc vs).count = acc.count + (presentVals vs).length := by
  induction vs generalizing acc with
  | nil => simp [addList, presentVals]
  | cons hd tl ih =>
    cases hd with
    | none => rw [addList_cons, add_none, ih, presentVals_cons_none]
    | some v =>
      rw [addList_cons, ih, add_some_count, presentVals_cons_some, List.length_cons]
      omega

/-- A freshly constructed accumulator (all dataclass defaults). -/
def MetricAccumulator.init : MetricAccumulator := {}

/-- C6: every `MetricAccumulator` reachable by a sequence of `add` calls from a
fresh accumulator satisfies: `count = 0` implies `minimum = +∞` and
`maximum = -∞`; `count > 0` implies `minimum ≤ v ≤ maximum` for every value `v`
added so far and `total / count` is the arithmetic mean of the added values;
and adding an absent value changes no field. -/
theorem metricAccumulator_invariants (vs : List (Option ℚ)) :
    ((addList MetricAccumulator.init vs).count = 0 →
      (addList MetricAccumulator.init vs).minimum = ⊤
      ∧ (addList MetricAccumulator.init vs).maximum = ⊥)
  ∧ (0 < (addList MetricAccumulator.init vs).count →
      (∀ v ∈ presentVals vs,
        (addList MetricAccumulator.init vs).minimum ≤ (v : WithTop ℚ)
        ∧ (v : WithBot ℚ) ≤ (addList MetricAccumulator.init vs).maximum)
      ∧ (addList MetricAccumulator.init vs).total
          / ((addList MetricAccumulator.init vs).count : ℚ)
        = (presentVals vs).sum / ((presentVals vs).length : ℚ))
  ∧ (∀ acc : MetricAccumulator, acc.add none = acc) := by
  have hmin : (addList MetricAccumulator.init vs).minimum = listInf (presentVals vs) := by
    rw [addList_minimum]; show ⊤ ⊓ _ = _; rw [top_inf_eq]
  have hmax : (addList MetricAccumulator.init vs).maximum = listSup (presentVals vs) := by
    rw [addList_maximum]; show ⊥ ⊔ _ = _; rw [bot_sup_eq]
  have htot : (addList MetricAccumulator.init vs).total = (presentVals vs).sum := by
    rw [addList_total]; show 0 + _ = _; rw [zero_add]
  have hcnt : (addList MetricAccumulator.init vs).count = (presentVals vs).length := by
    rw [addList_count]; show 0 + _ = _; rw [zero_add]
  refine ⟨?_, ?_, fun acc => add_none acc⟩
  · intro h0
    rw [hcnt] at h0
    have hpv : presentVals vs = [] := List.length_eq_zero.mp h0
    exact ⟨by rw [hmin, hpv, listInf_nil], by rw [hmax, hpv, listSup_nil]⟩
  · intro _
    refine ⟨fun v hv => ⟨hmin ▸ listInf_le hv, hmax ▸ le_listSup hv⟩, ?_⟩
    rw [htot, hcnt]

theorem metricAccumulator_invariants_witness :
    ((addList MetricAccumulator.init [some 3, none, some 1]).minimum ≤ ((1 : ℚ) : WithTop ℚ)
      ∧ ((1 : ℚ) : WithBot ℚ) ≤ (addList MetricAccumulator.init [some 3, none, some 1]).maximum)
  ∧ (addList MetricAccumulator.init [some 3, none, some 1]).total
      / ((addList MetricAccumulator.init [some 3, none, some 1]).count : ℚ)
    = (presentVals [some 3, none, some 1]).sum
      / ((presentVals [some 3, none, some 1]).length : ℚ) := by
  have h := (metricAccumulator_invariants [some 3, none, some 1]).2.1 (by decide)
  exact ⟨h.1 1 (by decide), h.2⟩

/-- C7: feeding any permutation of a stream of optional values into a fresh
`MetricAccumulator` yields the same minimum, maximum and mean, and absent
values change no field. -/
theorem metricAccumulator_perm (vs ws : List (Option ℚ)) (h : vs.Perm ws) :
    (addList MetricAccumulator.init vs).minimum = (addList MetricAccumulator.init ws).minimum
  ∧ (addList MetricAccumulator.init vs).maximum = (addList MetricAccumulator.init ws).maximum
  ∧ (addList MetricAccumulator.init vs).total / ((addList MetricAccumulator.init vs).count : ℚ)
      = (addList MetricAccumulator.init ws).total / ((addList MetricAccumulator.init ws).count : ℚ)
  ∧ (∀ acc : MetricAccumulator, acc.add none = acc) := by
  have hp : (presentVals vs).Perm (presentVals ws) := h.filterMap id
  refine ⟨?_, ?_, ?_, fun acc => add_none acc⟩
  · rw [addList_minimum, addList_minimum, listInf_perm hp]
  · rw [addList_maximum, addList_maximum, listSup_perm hp]
  · rw [addList_total, addList_total, addList_count, addList_count, hp.sum_eq, hp.length_eq]

theorem metricAccumulator_perm_witness :
    (addList MetricAccumulator.init [some 2, none, some 5]).minimum
      = (addList MetricAccumulator.init [some 5, some 2, none]).minimum
  ∧ (addList MetricAccumulator.init [some 2, none, some 5]).total
      / ((addList MetricAccumulator.init [some 2, none, some 5]).count : ℚ)
    = (addList MetricAccumulator.init [some 5, some 2, none]).total
      / ((addList MetricAccumulator.init [some 5, some 2, none]).count : ℚ) := by
  have h := metricAccumulator_perm [some 2, none, some 5] [some 5, some 2, none] (by decide)
  exact ⟨h.1, h.2.2.1⟩

/-- Embeds the `ProcessStats` dataclass: per-pid identity, four accumulators
and four "current" instantaneous values. -/
structure ProcessStats where
  pid : ℕ
  name : String
  ppid : ℤ
  first_seen : ℚ
  last_seen : ℚ
  cpu : MetricAccumulator := {}
  mem : MetricAccumulator := {}
  disk : MetricAccumulator := {}
  xfer : MetricAccumulator := {}
  current_cpu : ℚ := 0
  current_mem : ℚ := 0
  current_disk : ℚ := 0
  current_xfer : ℚ := 0
  deriving DecidableEq

/-- Embeds the `PrevSample` dataclass: the raw-counter basis for the next
interval's rates. -/
structure PrevSample where
  cpu_ticks : ℤ
  disk_bytes : ℤ
  xfer_bytes : ℤ
  timestamp : ℚ
  deriving DecidableEq

/-- One pass's view of `/proc`: `statRead pid` embeds `read_stat(pid)`
(returning `(name, ppid, utime + stime, rss_pages)` or `None`) and
`ioRead pid` embeds `read_io_counters(pid)` (returning
`(disk_total, xfer_total)` or `None`). -/
structure Env where
  statRead : ℕ → Option (String × ℤ × ℤ × ℤ)
  ioRead : ℕ → Option (ℤ × ℤ)

/-- The two dicts owned by the sampling loop (`stats_by_pid`, `prev_by_pid`),
modelled as association lists. -/
structure SampleState where
  stats_by_pid : List (ℕ × ProcessStats)
  prev_by_pid : List (ℕ × PrevSample)
  deriving DecidableEq

/-- Python dict assignment `d[k] = v`: replace the binding if the key is
present, else append it. -/
def updateDict {α : Type} (d : List (ℕ × α)) (k : ℕ) (v : α) : List (ℕ × α) :=
  match d with
  | [] => [(k, v)]
  | (k0, v0) :: rest => if k0 = k then (k, v) :: rest else (k0, v0) :: updateDict rest k v

theorem lookup_updateDict_self {α : Type} (d : List (ℕ × α)) (k : ℕ) (v : α) :
    (updateDict d k v).lookup k = some v := by
  induction d with
  | nil => simp [updateDict]
  | cons hd tl ih =>
    obtain ⟨k0, v0⟩ := hd
    by_cases h : k0 = k
    · simp [updateDict, h]
    · simp only [updateDict, if_neg h, List.lookup_cons, beq_false_of_ne (Ne.symm h)]
      exact ih

theorem lookup_updateDict_ne {α : Type} (d : List (ℕ × α)) (k k' : ℕ) (v : α) (h : k ≠ k') :
    (updateDict d k' v).lookup k = d.lookup k := by
  induction d with
  | nil =>
    simp [updateDict, List.lookup_cons, beq_false_of_ne h]
  | cons hd tl ih =>
    obtain ⟨k0, v0⟩ := hd
    by_cases h0 : k0 = k'
    · subst h0
      simp [updateDict, List.lookup_cons, beq_false_of_ne h]
    · simp only [updateDict, if_neg h0, List.lookup_cons]
      cases hb : k == k0 <;> simp [ih]

/-- The body of the `for pid in tracked` loop of `sample_once`, for one pid:
read `/proc/<pid>/stat` (skip the pid on failure), read `/proc/<pid>/io`,
create or refresh the `ProcessStats` record, derive the optional rates from
the previous raw sample, clamp them, feed the accumulators, and store the
carried-forward `PrevSample`. -/
def samplePid (env : Env) (now clk_tck : ℚ) (page_size : ℤ) (st : SampleState) (pid : ℕ) :
    SampleState :=
  match env.statRead pid with
  | none => st
  | some (name, ppid, cpu_ticks, rss_pages) =>
    let io_counters := env.ioRead pid
    let disk_total : Option ℤ := io_counters.map Prod.fst
    let xfer_total : Option ℤ := io_counters.map Prod.snd
    let rss_bytes : ℤ := rss_pages * page_size
    let record0 : ProcessStats :=
      match st.stats_by_pid.lookup pid with
      | none => { pid := pid, name := name, ppid := ppid, first_seen := now, last_seen := now }
      | some r => { r with last_seen := now }
    let prev : Option PrevSample := st.prev_by_pid.lookup pid
    let rates : Option ℚ × Option ℚ × Option ℚ :=
      match prev with
      | none => (none, none, none)
      | some p =>
        let dt := now - p.timestamp
        if 0 < dt then
          (some ((((cpu_ticks - p.cpu_ticks : ℤ) : ℚ) / clk_tck) / dt * 100),
           disk_total.map (fun d => (((d - p.disk_bytes : ℤ) : ℚ) / dt)),
           xfer_total.map (fun x => (((x - p.xfer_bytes : ℤ) : ℚ) / dt)))
        else (none, none, none)
    let cpu_pct : Option ℚ := rates.1.map (fun v => max 0 v)
    let disk_bps : Option ℚ := rates.2.1.map (fun v => max 0 v)
    let xfer_bps : Option ℚ := rates.2.2.map (fun v => max 0 v)
    let record1 : ProcessStats :=
      { record0 with
        current_cpu := cpu_pct.getD 0
        current_disk := disk_bps.getD 0
        current_xfer := xfer_bps.getD 0
        current_mem := (rss_bytes : ℚ) }
    let record2 : ProcessStats :=
      { record1 with
        cpu := record1.cpu.add cpu_pct
        mem := record1.mem.add (some ((rss_bytes : ℚ)))
        disk := record1.disk.add disk_bps
        xfer := record1.xfer.add xfer_bps }
    let newPrev : PrevSample :=
      if disk_total.isSome || xfer_total.isSome then
        { cpu_ticks := cpu_ticks
          disk_bytes := disk_total.getD (match prev with | some p => p.disk_bytes | none => 0)
          xfer_bytes := xfer_total.getD (match prev with | some p => p.xfer_bytes | none => 0)
          timestamp := now }
      else
        match prev with
        | none => { cpu_ticks := cpu_ticks, disk_bytes := 0, xfer_bytes := 0, timestamp := now }
        | some p =>
          { cpu_ticks := cpu_ticks, disk_bytes := p.disk_bytes, xfer_bytes := p.xfer_bytes,
            timestamp := now }
    { stats_by_pid := updateDict st.stats_by_pid pid record2
      prev_by_pid := updateDict st.prev_by_pid pid newPrev }

/-- Embeds `sample_once`: the tracked set (result of
`pids_in_service_cgroup`) is a parameter; an empty set short-circuits with
count 0, else every tracked pid is processed and the tracked count returned. -/
def sample_once (env : Env) (tracked : List ℕ) (now clk_tck : ℚ) (page_size : ℤ)
    (st : SampleState) : SampleState × ℕ :=
  if tracked.isEmpty then (st, 0)
  else (tracked.foldl (samplePid env now clk_tck page_size) st, tracked.length)

/-- One iteration of the main sampling loop: the tracked-pid set resolved for
this pass, the `/proc` oracles of this instant, and the monotonic clock value. -/
structure Pass where
  tracked : List ℕ
  env : Env
  now : ℚ

/-- A whole session: the main loop of `main` run over a list of passes,
starting from empty dicts. -/
def runSession (clk_tck : ℚ) (page_size : ℤ) (passes : List Pass) : SampleState :=
  passes.foldl (fun st p => (sample_once p.env p.tracked p.now clk_tck page_size st).1) ⟨[], []⟩

/-- Insertion into an ascending pid list (model of `sorted(stats_by_pid)`). -/
def insertAsc (x : ℕ) : List ℕ → List ℕ
  | [] => [x]
  | y :: ys => if x ≤ y then x :: y :: ys else y :: insertAsc x ys

/-- Ascending sort of the pid keys. -/
def sortAsc (l : List ℕ) : List ℕ := l.foldr insertAsc []

/-- The final report of `main`: one entry per stored pid, in ascending pid
order. -/
def finalReport (st : SampleState) : List (ℕ × ProcessStats) :=
  (sortAsc (st.stats_by_pid.map Prod.fst)).filterMap
    (fun pid => (st.stats_by_pid.lookup pid).map (fun r => (pid, r)))

/-- The exit code of `main` after the loop: 1 (`No matching process data
collected.`) when the registry is empty, else 0 after printing the report. -/
def mainExit (st : SampleState) : ℕ :=
  if st.stats_by_pid.isEmpty then 1 else 0

theorem samplePid_lookup_ne (env : Env) (now clk_tck : ℚ) (page_size : ℤ) (st : SampleState)
    (pid' pid : ℕ) (h : pid ≠ pid') :
    (samplePid env now clk_tck page_size st pid').stats_by_pid.lookup pid
        = st.stats_by_pid.lookup pid
  ∧ (samplePid env now clk_tck page_size st pid').prev_by_pid.lookup pid
        = st.prev_by_pid.lookup pid := by
  unfold samplePid
  cases henv : env.statRead pid' with
  | none => exact ⟨rfl, rfl⟩
  | some t =>
    obtain ⟨name, ppid, ticks, rss⟩ := t
    exact ⟨lookup_updateDict_ne _ _ _ _ h, lookup_updateDict_ne _ _ _ _ h⟩

theorem foldl_samplePid_not_mem (env : Env) (now clk_tck : ℚ) (page_size : ℤ)
    (l : List ℕ) (st : SampleState) (pid : ℕ) (h : pid ∉ l) :
    ((l.foldl (samplePid env now clk_tck page_size) st).stats_by_pid.lookup pid
        = st.stats_by_pid.lookup pid)
  ∧ ((l.foldl (samplePid env now clk_tck page_size) st).prev_by_pid.lookup pid
        = st.prev_by_pid.lookup pid) := by
  induction l generalizing st with
  | nil => exact ⟨rfl, rfl⟩
  | cons a tl ih =>
    have hne : pid ≠ a := fun e => h (by rw [e]; exact List.mem_cons_self a tl)
    have hnotm : pid ∉ tl := fun m => h (List.mem_cons_of_mem a m)
    rw [List.foldl_cons]
    obtain ⟨h1, h2⟩ := ih (samplePid env now clk_tck page_size st a) hnotm
    obtain ⟨g1, g2⟩ := samplePid_lookup_ne env now clk_tck page_size st a pid hne
    exact ⟨h1.trans g1, h2.trans g2⟩

theorem foldl_samplePid_extract (env : Env) (now clk_tck : ℚ) (page_size : ℤ)
    (l : List ℕ) (st : SampleState) (pid : ℕ) (hmem : pid ∈ l) (hnd : l.Nodup) :
    ∃ st' : SampleState,
      st'.stats_by_pid.lookup pid = st.stats_by_pid.lookup pid
    ∧ st'.prev_by_pid.lookup pid = st.prev_by_pid.lookup pid
    ∧ (l.foldl (samplePid env now clk_tck page_size) st).stats_by_pid.lookup pid
        = (samplePid env now clk_tck page_size st' pid).stats_by_pid.lookup pid
    ∧ (l.foldl (samplePid env now clk_tck page_size) st).prev_by_pid.lookup pid
        = (samplePid env now clk_tck page_size st' pid).prev_by_pid.lookup pid := by
  revert hmem hnd
  induction l generalizing st with
  | nil => intro hmem _; cases hmem
  | cons a tl ih =>
    intro hmem hnd
    rw [List.foldl_cons]
    have hnd2 : tl.Nodup := (List.nodup_cons.mp hnd).2
    by_cases hpa : pid = a
    · subst hpa
      have hna : pid ∉ tl := (List.nodup_cons.mp hnd).1
      obtain ⟨h1, h2⟩ := foldl_samplePid_not_mem env now clk_tck page_size tl
        (samplePid env now clk_tck page_size st pid) pid hna
      exact ⟨st, rfl, rfl, h1, h2⟩
    · have hmem2 : pid ∈ tl := by
        rcases List.mem_cons.mp hmem with h' | h'
        · exact absurd h' hpa
        · exact h'
      obtain ⟨g1, g2⟩ := samplePid_lookup_ne env now clk_tck page_size st a pid hpa
      obtain ⟨st', e1, e2, e3, e4⟩ := ih (samplePid env now clk_tck page_size st a) hmem2 hnd2
      exact ⟨st', e1.trans g1, e2.trans g2, e3, e4⟩

theorem sample_once_of_mem (env : Env) (tracked : List ℕ) (now clk_tck : ℚ) (page_size : ℤ)
    (st : SampleState) (pid : ℕ) (hmem : pid ∈ tracked) :
    (sample_once env tracked now clk_tck page_size st).1
      = tracked.foldl (samplePid env now clk_tck page_size) st := by
  cases tracked with
  | nil => cases hmem
  | cons a tl => rfl

theorem sample_once_lookup (env : Env) (tracked : List ℕ) (now clk_tck : ℚ) (page_size : ℤ)
    (st : SampleState) (pid : ℕ) (hmem : pid ∈ tracked) (hnd : tracked.Nodup) :
    ∃ st' : SampleState,
      st'.stats_by_pid.lookup pid = st.stats_by_pid.lookup pid
    ∧ st'.prev_by_pid.lookup pid = st.prev_by_pid.lookup pid
    ∧ (sample_once env tracked now clk_tck page_size st).1.stats_by_pid.lookup pid
        = (samplePid env now clk_tck page_size st' pid).stats_by_pid.lookup pid
    ∧ (sample_once env tracked now clk_tck page_size st).1.prev_by_pid.lookup pid
        = (samplePid env now clk_tck page_size st' pid).prev_by_pid.lookup pid := by
  rw [sample_once_of_mem env tracked now clk_tck page_size st pid hmem]
  exact foldl_samplePid_extract env now clk_tck page_size tracked st pid hmem hnd

/-- C9: for every pid with a stored previous snapshot, if the elapsed time
`dt = now - prev.timestamp` is `≤ 0`, all three rate outputs of the pass are
absent, so the cpu, disk and xfer accumulators of the pid's record are left
exactly as they were (only the memory accumulator still receives a value). -/
theorem nonpositive_dt_no_rates (env : Env) (tracked : List ℕ) (now clk_tck : ℚ)
    (page_size : ℤ) (st : SampleState) (pid : ℕ) (name : String) (ppid ticks rss : ℤ)
    (p : PrevSample) (r : ProcessStats)
    (hmem : pid ∈ tracked) (hnd : tracked.Nodup)
    (hstat : env.statRead pid = some (name, ppid, ticks, rss))
    (hrec : st.stats_by_pid.lookup pid = some r)
    (hprev : st.prev_by_pid.lookup pid = some p)
    (hdt : now - p.timestamp ≤ 0) :
    ∃ r' : ProcessStats,
      (sample_once env tracked now clk_tck page_size st).1.stats_by_pid.lookup pid = some r'
      ∧ r'.cpu = r.cpu ∧ r'.disk = r.disk ∧ r'.xfer = r.xfer := by
  obtain ⟨st', e1, e2, e3, _⟩ :=
    sample_once_lookup env tracked now clk_tck page_size st pid hmem hnd
  rw [hrec] at e1
  rw [hprev] at e2
  rw [e3]
  have hnlt : ¬ (0 < now - p.timestamp) := not_lt.mpr hdt
  simp only [samplePid, hstat, e1, e2, hnlt, if_false]
  exact ⟨_, lookup_updateDict_self _ _ _, rfl, rfl, rfl⟩

/-- Concrete witness scenario: a pid whose stat and I/O reads both succeed. -/
def envA : Env := ⟨fun _ => some ("p", 1, 7, 2), fun _ => some (3, 4)⟩

/-- Concrete witness scenario: stat read succeeds, I/O-counter read fails. -/
def envB : Env := ⟨fun _ => some ("p", 1, 7, 2), fun _ => none⟩

/-- Concrete witness scenario: a record already present in the registry. -/
def rec0 : ProcessStats := { pid := 100, name := "p", ppid := 1, first_seen := 0, last_seen := 0 }

/-- Concrete witness scenario: a stored previous sample taken at time 5. -/
def prev0 : PrevSample := { cpu_ticks := 0, disk_bytes := 0, xfer_bytes := 0, timestamp := 5 }

/-- Concrete witness scenario: registry and previous-sample table holding pid 100. -/
def st0 : SampleState := ⟨[(100, rec0)], [(100, prev0)]⟩

/-- Concrete witness scenario: empty registry and previous-sample table. -/
def stEmpty : SampleState := ⟨[], []⟩

theorem nonpositive_dt_no_rates_witness :
    ∃ r' : ProcessStats,
      (sample_once envA [100] 5 100 4096 st0).1.stats_by_pid.lookup 100 = some r'
      ∧ r'.cpu = rec0.cpu ∧ r'.disk = rec0.disk ∧ r'.xfer = rec0.xfer :=
  nonpositive_dt_no_rates envA [100] 5 100 4096 st0 100 "p" 1 7 2 prev0 rec0
    (by decide) (by decide) rfl rfl rfl (by norm_num [prev0])

/-- C2 counterexample: pid 100 is first observed with name `"a"` and parent 1;
on the next pass the stat read returns name `"b"` and parent 2, yet the stored
record still carries name `"a"` and parent 1: `name`/`parent_pid` are NOT
refreshed on later samples (only `last_seen` is). -/
theorem identity_refresh_counterexample :
    ((runSession 100 4096
      [⟨[100], ⟨fun _ => some ("a", 1, 0, 1), fun _ => some (0, 0)⟩, 0⟩,
       ⟨[100], ⟨fun _ => some ("b", 2, 10, 1), fun _ => some (0, 0)⟩, 1⟩]).stats_by_pid.lookup
        100).map (fun r => (r.name, r.ppid)) = some ("a", (1 : ℤ))
  ∧ ("a", (1 : ℤ)) ≠ ("b", (2 : ℤ)) := by
  constructor
  · norm_num [runSession, sample_once, samplePid, updateDict, MetricAccumulator.add,
      List.lookup_cons]
  · simp

/-- C2 amended: for a pid already present in the registry, a pass in which its
stat read succeeds updates `last_seen` but leaves `pid`, `name`, `ppid` and
`first_seen` at their first-observed values; the current read's name and
parent pid are discarded for an existing record. -/
theorem identity_not_refreshed (env : Env) (tracked : List ℕ) (now clk_tck : ℚ)
    (page_size : ℤ) (st : SampleState) (pid : ℕ) (name : String) (ppid ticks rss : ℤ)
    (r : ProcessStats)
    (hmem : pid ∈ tracked) (hnd : tracked.Nodup)
    (hstat : env.statRead pid = some (name, ppid, ticks, rss))
    (hrec : st.stats_by_pid.lookup pid = some r) :
    ∃ r' : ProcessStats,
      (sample_once env tracked now clk_tck page_size st).1.stats_by_pid.lookup pid = some r'
      ∧ r'.pid = r.pid ∧ r'.name = r.name ∧ r'.ppid = r.ppid
      ∧ r'.first_seen = r.first_seen ∧ r'.last_seen = now := by
  obtain ⟨st', e1, _, e3, _⟩ :=
    sample_once_lookup env tracked now clk_tck page_size st pid hmem hnd
  rw [hrec] at e1
  rw [e3]
  simp only [samplePid, hstat, e1]
  exact ⟨_, lookup_updateDict_self _ _ _, rfl, rfl, rfl, rfl, rfl⟩

theorem identity_not_refreshed_witness :
    ∃ r' : ProcessStats,
      (sample_once envA [100] 9 100 4096 st0).1.stats_by_pid.lookup 100 = some r'
      ∧ r'.pid = rec0.pid ∧ r'.name = rec0.name ∧ r'.ppid = rec0.ppid
      ∧ r'.first_seen = rec0.first_seen ∧ r'.last_seen = 9 :=
  identity_not_refreshed envA [100] 9 100 4096 st0 100 "p" 1 7 2 rec0
    (by decide) (by decide) rfl rfl

/-- C3: after a pass in which a pid's stat read succeeded, the stored
`PrevSample` always carries the current read's timestamp and cpu ticks; its
disk/xfer byte counters carry the current I/O read's values when that read
succeeded, and otherwise the previously stored values unchanged. -/
theorem prev_carry_forward (env : Env) (tracked : List ℕ) (now clk_tck : ℚ)
    (page_size : ℤ) (st : SampleState) (pid : ℕ) (name : String) (ppid ticks rss : ℤ)
    (hmem : pid ∈ tracked) (hnd : tracked.Nodup)
    (hstat : env.statRead pid = some (name, ppid, ticks, rss)) :
    ∃ p' : PrevSample,
      (sample_once env tracked now clk_tck page_size st).1.prev_by_pid.lookup pid = some p'
      ∧ p'.timestamp = now ∧ p'.cpu_ticks = ticks
      ∧ (∀ d x : ℤ, env.ioRead pid = some (d, x) → p'.disk_bytes = d ∧ p'.xfer_bytes = x)
      ∧ (env.ioRead pid = none →
          ∀ p0 : PrevSample, st.prev_by_pid.lookup pid = some p0 →
            p'.disk_bytes = p0.disk_bytes ∧ p'.xfer_bytes = p0.xfer_bytes) := by
  obtain ⟨st', _, e2, _, e4⟩ :=
    sample_once_lookup env tracked now clk_tck page_size st pid hmem hnd
  rw [e4]
  cases hio : env.ioRead pid with
  | some dx =>
    obtain ⟨d, x⟩ := dx
    simp only [samplePid, hstat, hio, Option.map_some', Option.isSome_some, Bool.or_self,
      if_true, Option.getD_some]
    refine ⟨_, lookup_updateDict_self _ _ _, rfl, rfl, ?_, ?_⟩
    · intro d' x' h
      cases h
      exact ⟨rfl, rfl⟩
    · intro h
      cases h
  | none =>
    simp only [samplePid, hstat, hio, Option.map_none', Option.isSome_none, Bool.or_self,
      if_false]
    cases hp0 : st'.prev_by_pid.lookup pid with
    | none =>
      simp only [hp0]
      refine ⟨_, lookup_updateDict_self _ _ _, rfl, rfl, ?_, ?_⟩
      · intro d' x' h
        cases h
      · intro _ p1 hp
        rw [← e2, hp0] at hp
        cases hp
    | some p0 =>
      simp only [hp0]
      refine ⟨_, lookup_updateDict_self _ _ _, rfl, rfl, ?_, ?_⟩
      · intro d' x' h
        cases h
      · intro _ p1 hp
        rw [← e2, hp0] at hp
        cases hp
        exact ⟨rfl, rfl⟩

theorem prev_carry_forward_witness :
    (∃ p' : PrevSample,
      (sample_once envA [100] 9 100 4096 st0).1.prev_by_pid.lookup 100 = some p'
      ∧ p'.timestamp = 9 ∧ p'.cpu_ticks = 7
      ∧ (∀ d x : ℤ, envA.ioRead 100 = some (d, x) → p'.disk_bytes = d ∧ p'.xfer_bytes = x)
      ∧ (envA.ioRead 100 = none →
          ∀ p0 : PrevSample, st0.prev_by_pid.lookup 100 = some p0 →
            p'.disk_bytes = p0.disk_bytes ∧ p'.xfer_bytes = p0.xfer_bytes))
  ∧ (∃ p' : PrevSample,
      (sample_once envB [100] 9 100 4096 st0).1.prev_by_pid.lookup 100 = some p'
      ∧ p'.timestamp = 9 ∧ p'.cpu_ticks = 7
      ∧ (∀ d x : ℤ, envB.ioRead 100 = some (d, x) → p'.disk_bytes = d ∧ p'.xfer_bytes = x)
      ∧ (envB.ioRead 100 = none →
          ∀ p0 : PrevSample, st0.prev_by_pid.lookup 100 = some p0 →
            p'.disk_bytes = p0.disk_bytes ∧ p'.xfer_bytes = p0.xfer_bytes)) :=
  ⟨prev_carry_forward envA [100] 9 100 4096 st0 100 "p" 1 7 2 (by decide) (by decide) rfl,
   prev_carry_forward envB [100] 9 100 4096 st0 100 "p" 1 7 2 (by decide) (by decide) rfl⟩

/-- C8: on the first observation of a pid (no stored record, no previous
snapshot), all three rate outputs are absent while the instantaneous memory
value is present: the created record has cpu/disk/xfer accumulators with
count 0 each reporting `(0, 0, 0)`, a memory accumulator with count 1, and
`current_mem` set from the read; moreover a pass whose stat read fails leaves
the state untouched, so a pid read successfully exactly once keeps these
values. -/
theorem first_observation (env : Env) (tracked : List ℕ) (now clk_tck : ℚ)
    (page_size : ℤ) (st : SampleState) (pid : ℕ) (name : String) (ppid ticks rss : ℤ)
    (hmem : pid ∈ tracked) (hnd : tracked.Nodup)
    (hstat : env.statRead pid = some (name, ppid, ticks, rss))
    (hrec : st.stats_by_pid.lookup pid = none)
    (hprev : st.prev_by_pid.lookup pid = none) :
    (∃ r' : ProcessStats,
      (sample_once env tracked now clk_tck page_size st).1.stats_by_pid.lookup pid = some r'
      ∧ r'.cpu.count = 0 ∧ r'.disk.count = 0 ∧ r'.xfer.count = 0
      ∧ r'.cpu.as_tuple = (((0 : ℚ) : WithTop ℚ), ((0 : ℚ) : WithBot ℚ), (0 : ℚ))
      ∧ r'.disk.as_tuple = (((0 : ℚ) : WithTop ℚ), ((0 : ℚ) : WithBot ℚ), (0 : ℚ))
      ∧ r'.xfer.as_tuple = (((0 : ℚ) : WithTop ℚ), ((0 : ℚ) : WithBot ℚ), (0 : ℚ))
      ∧ r'.mem.count = 1
      ∧ r'.current_mem = ((rss * page_size : ℤ) : ℚ))
  ∧ (∀ env2 : Env, ∀ now2 clk2 : ℚ, ∀ pg2 : ℤ, ∀ st2 : SampleState,
      env2.statRead pid = none → samplePid env2 now2 clk2 pg2 st2 pid = st2) := by
  constructor
  · obtain ⟨st', e1, e2, e3, _⟩ :=
      sample_once_lookup env tracked now clk_tck page_size st pid hmem hnd
    rw [hrec] at e1
    rw [hprev] at e2
    rw [e3]
    simp only [samplePid, hstat, e1, e2]
    exact ⟨_, lookup_updateDict_self _ _ _, rfl, rfl, rfl, rfl, rfl, rfl, rfl, rfl⟩
  · intro env2 now2 clk2 pg2 st2 h
    simp only [samplePid, h]

theorem first_observation_witness :
    (∃ r' : ProcessStats,
      (sample_once envA [100] 0 100 4096 stEmpty).1.stats_by_pid.lookup 100 = some r'
      ∧ r'.cpu.count = 0 ∧ r'.disk.count = 0 ∧ r'.xfer.count = 0
      ∧ r'.cpu.as_tuple = (((0 : ℚ) : WithTop ℚ), ((0 : ℚ) : WithBot ℚ), (0 : ℚ))
      ∧ r'.disk.as_tuple = (((0 : ℚ) : WithTop ℚ), ((0 : ℚ) : WithBot ℚ), (0 : ℚ))
      ∧ r'.xfer.as_tuple = (((0 : ℚ) : WithTop ℚ), ((0 : ℚ) : WithBot ℚ), (0 : ℚ))
      ∧ r'.mem.count = 1
      ∧ r'.current_mem = (((2 : ℤ) * 4096 : ℤ) : ℚ))
  ∧ (∀ env2 : Env, ∀ now2 clk2 : ℚ, ∀ pg2 : ℤ, ∀ st2 : SampleState,
      env2.statRead 100 = none → samplePid env2 now2 clk2 pg2 st2 100 = st2) :=
  first_observation envA [100] 0 100 4096 stEmpty 100 "p" 1 7 2
    (by decide) (by decide) rfl rfl rfl

/-- C5: for a stored previous snapshot and a current successful read with
`dt = now - prev.timestamp > 0` (I/O counters present): a non-negative counter
delta yields exactly `(curr - prev) / dt` (for CPU,
`(curr - prev) / ticks_per_second / dt * 100`), which is `≥ 0`; a decreased
counter yields rate 0, never negative. -/
theorem rate_formula (env : Env) (tracked : List ℕ) (now clk_tck : ℚ)
    (page_size : ℤ) (st : SampleState) (pid : ℕ) (name : String) (ppid ticks rss d x : ℤ)
    (p : PrevSample)
    (hmem : pid ∈ tracked) (hnd : tracked.Nodup)
    (hstat : env.statRead pid = some (name, ppid, ticks, rss))
    (hio : env.ioRead pid = some (d, x))
    (hprev : st.prev_by_pid.lookup pid = some p)
    (hdt : 0 < now - p.timestamp)
    (hclk : 0 < clk_tck) :
    ∃ r' : ProcessStats,
      (sample_once env tracked now clk_tck page_size st).1.stats_by_pid.lookup pid = some r'
      ∧ (p.cpu_ticks ≤ ticks →
          r'.current_cpu = (((ticks - p.cpu_ticks : ℤ) : ℚ) / clk_tck) / (now - p.timestamp) * 100
          ∧ 0 ≤ r'.current_cpu)
      ∧ (ticks < p.cpu_ticks → r'.current_cpu = 0)
      ∧ (p.disk_bytes ≤ d →
          r'.current_disk = ((d - p.disk_bytes : ℤ) : ℚ) / (now - p.timestamp)
          ∧ 0 ≤ r'.current_disk)
      ∧ (d < p.disk_bytes → r'.current_disk = 0)
      ∧ (p.xfer_bytes ≤ x →
          r'.current_xfer = ((x - p.xfer_bytes : ℤ) : ℚ) / (now - p.timestamp)
          ∧ 0 ≤ r'.current_xfer)
      ∧ (x < p.xfer_bytes → r'.current_xfer = 0) := by
  obtain ⟨st', _, e2, e3, _⟩ :=
    sample_once_lookup env tracked now clk_tck page_size st pid hmem hnd
  rw [hprev] at e2
  rw [e3]
  simp only [samplePid, hstat, e2, hio, Option.map_some', hdt, if_true, Option.getD_some]
  refine ⟨_, lookup_updateDict_self _ _ _, ?_, ?_, ?_, ?_, ?_, ?_⟩
  · intro hle
    have hnum : (0 : ℚ) ≤ ((ticks - p.cpu_ticks : ℤ) : ℚ) := by
      exact_mod_cast Int.sub_nonneg.mpr hle
    have h0 : (0 : ℚ)
        ≤ (((ticks - p.cpu_ticks : ℤ) : ℚ) / clk_tck) / (now - p.timestamp) * 100 :=
      mul_nonneg (div_nonneg (div_nonneg hnum hclk.le) hdt.le) (by norm_num)
    exact ⟨max_eq_right h0, le_max_left _ _⟩
  · intro hlt
    have hnum : ((ticks - p.cpu_ticks : ℤ) : ℚ) ≤ 0 := by
      exact_mod_cast sub_nonpos.mpr hlt.le
    have h0 : (((ticks - p.cpu_ticks : ℤ) : ℚ) / clk_tck) / (now - p.timestamp) * 100 ≤ 0 :=
      mul_nonpos_iff.mpr (Or.inr ⟨div_nonpos_iff.mpr (Or.inr
        ⟨div_nonpos_iff.mpr (Or.inr ⟨hnum, hclk.le⟩), hdt.le⟩), by norm_num⟩)
    exact max_eq_left h0
  · intro hle
    have hnum : (0 : ℚ) ≤ ((d - p.disk_bytes : ℤ) : ℚ) := by
      exact_mod_cast Int.sub_nonneg.mpr hle
    have h0 : (0 : ℚ) ≤ ((d - p.disk_bytes : ℤ) : ℚ) / (now - p.timestamp) :=
      div_nonneg hnum hdt.le
    exact ⟨max_eq_right h0, le_max_left _ _⟩
  · intro hlt
    have hnum : ((d - p.disk_bytes : ℤ) : ℚ) ≤ 0 := by
      exact_mod_cast sub_nonpos.mpr hlt.le
    exact max_eq_left (div_nonpos_iff.mpr (Or.inr ⟨hnum, hdt.le⟩))
  · intro hle
    have hnum : (0 : ℚ) ≤ ((x - p.xfer_bytes : ℤ) : ℚ) := by
      exact_mod_cast Int.sub_nonneg.mpr hle
    have h0 : (0 : ℚ) ≤ ((x - p.xfer_bytes : ℤ) : ℚ) / (now - p.timestamp) :=
      div_nonneg hnum hdt.le
    exact ⟨max_eq_right h0, le_max_left _ _⟩
  · intro hlt
    have hnum : ((x - p.xfer_bytes : ℤ) : ℚ) ≤ 0 := by
      exact_mod_cast sub_nonpos.mpr hlt.le
    exact max_eq_left (div_nonpos_iff.mpr (Or.inr ⟨hnum, hdt.le⟩))

theorem rate_formula_witness :
    ∃ r' : ProcessStats,
      (sample_once envA [100] 6 100 4096 st0).1.stats_by_pid.lookup 100 = some r'
      ∧ (prev0.cpu_ticks ≤ 7 →
          r'.current_cpu = (((7 - prev0.cpu_ticks : ℤ) : ℚ) / 100) / (6 - prev0.timestamp) * 100
          ∧ 0 ≤ r'.current_cpu)
      ∧ ((7 : ℤ) < prev0.cpu_ticks → r'.current_cpu = 0)
      ∧ (prev0.disk_bytes ≤ 3 →
          r'.current_disk = ((3 - prev0.disk_bytes : ℤ) : ℚ) / (6 - prev0.timestamp)
          ∧ 0 ≤ r'.current_disk)
      ∧ ((3 : ℤ) < prev0.disk_bytes → r'.current_disk = 0)
      ∧ (prev0.xfer_bytes ≤ 4 →
          r'.current_xfer = ((4 - prev0.xfer_bytes : ℤ) : ℚ) / (6 - prev0.timestamp)
          ∧ 0 ≤ r'.current_xfer)
      ∧ ((4 : ℤ) < prev0.xfer_bytes → r'.current_xfer = 0) :=
  rate_formula envA [100] 6 100 4096 st0 100 "p" 1 7 2 3 4 prev0
    (by decide) (by decide) rfl rfl rfl (by norm_num [prev0]) (by norm_num)

/-- C4: if the very first successful stat read of a pid happens on a pass where
the I/O read fails, the stored `PrevSample` records zero disk/xfer bytes; on
the next pass with `dt > 0` and a successful I/O read returning totals `D` and
`X`, the computed rates are `D/dt` and `X/dt` and are fed to the accumulators
(not absent). -/
theorem first_read_without_io (env1 env2 : Env) (tr1 tr2 : List ℕ) (t1 t2 clk_tck : ℚ)
    (page_size : ℤ) (st : SampleState) (pid : ℕ)
    (n1 n2 : String) (pp1 pp2 ticks1 ticks2 rss1 rss2 D X : ℤ)
    (hm1 : pid ∈ tr1) (hnd1 : tr1.Nodup) (hm2 : pid ∈ tr2) (hnd2 : tr2.Nodup)
    (hstat1 : env1.statRead pid = some (n1, pp1, ticks1, rss1))
    (hio1 : env1.ioRead pid = none)
    (hprev : st.prev_by_pid.lookup pid = none)
    (hstat2 : env2.statRead pid = some (n2, pp2, ticks2, rss2))
    (hio2 : env2.ioRead pid = some (D, X))
    (hdt : t1 < t2) (hD : 0 ≤ D) (hX : 0 ≤ X) :
    (sample_once env1 tr1 t1 clk_tck page_size st).1.prev_by_pid.lookup pid
      = some { cpu_ticks := ticks1, disk_bytes := 0, xfer_bytes := 0, timestamp := t1 }
    ∧ ∃ r1 r2 : ProcessStats,
        (sample_once env1 tr1 t1 clk_tck page_size st).1.stats_by_pid.lookup pid = some r1
        ∧ (sample_once env2 tr2 t2 clk_tck page_size
            (sample_once env1 tr1 t1 clk_tck page_size st).1).1.stats_by_pid.lookup pid
            = some r2
        ∧ r2.current_disk = (D : ℚ) / (t2 - t1)
        ∧ r2.current_xfer = (X : ℚ) / (t2 - t1)
        ∧ r2.disk.count = r1.disk.count + 1
        ∧ r2.xfer.count = r1.xfer.count + 1 := by
  obtain ⟨stA, _, eA2, eA3, eA4⟩ :=
    sample_once_lookup env1 tr1 t1 clk_tck page_size st pid hm1 hnd1
  rw [hprev] at eA2
  have hprev1 : (sample_once env1 tr1 t1 clk_tck page_size st).1.prev_by_pid.lookup pid
      = some { cpu_ticks := ticks1, disk_bytes := 0, xfer_bytes := 0, timestamp := t1 } := by
    rw [eA4]
    simp only [samplePid, hstat1, hio1, eA2, Option.map_none', Option.isSome_none,
      Bool.or_self, if_false]
    exact lookup_updateDict_self _ _ _
  have hr1ex : ∃ r1 : ProcessStats,
      (sample_once env1 tr1 t1 clk_tck page_size st).1.stats_by_pid.lookup pid = some r1 := by
    rw [eA3]
    simp only [samplePid, hstat1]
    exact ⟨_, lookup_updateDict_self _ _ _⟩
  obtain ⟨r1, hr1⟩ := hr1ex
  refine ⟨hprev1, r1, ?_⟩
  obtain ⟨stB, eB1, eB2, eB3, _⟩ :=
    sample_once_lookup env2 tr2 t2 clk_tck page_size
      (sample_once env1 tr1 t1 clk_tck page_size st).1 pid hm2 hnd2
  rw [hr1] at eB1
  rw [hprev1] at eB2
  have hdtpos : (0 : ℚ) < t2 - t1 := sub_pos.mpr hdt
  rw [eB3]
  simp only [samplePid, hstat2, eB1, eB2, hio2, Option.map_some', hdtpos, if_true,
    Option.getD_some]
  refine ⟨_, hr1, lookup_updateDict_self _ _ _, ?_, ?_, rfl, rfl⟩
  · have hcast : ((D - (0 : ℤ) : ℤ) : ℚ) = (D : ℚ) := by norm_num
    show max 0 (((D - (0 : ℤ) : ℤ) : ℚ) / (t2 - t1)) = (D : ℚ) / (t2 - t1)
    rw [hcast]
    exact max_eq_right (div_nonneg (by exact_mod_cast hD) hdtpos.le)
  · have hcast : ((X - (0 : ℤ) : ℤ) : ℚ) = (X : ℚ) := by norm_num
    show max 0 (((X - (0 : ℤ) : ℤ) : ℚ) / (t2 - t1)) = (X : ℚ) / (t2 - t1)
    rw [hcast]
    exact max_eq_right (div_nonneg (by exact_mod_cast hX) hdtpos.le)

theorem first_read_without_io_witness :
    (sample_once envB [100] 0 100 4096 stEmpty).1.prev_by_pid.lookup 100
      = some { cpu_ticks := 7, disk_bytes := 0, xfer_bytes := 0, timestamp := 0 }
    ∧ ∃ r1 r2 : ProcessStats,
        (sample_once envB [100] 0 100 4096 stEmpty).1.stats_by_pid.lookup 100 = some r1
        ∧ (sample_once envA [100] 2 100 4096
            (sample_once envB [100] 0 100 4096 stEmpty).1).1.stats_by_pid.lookup 100
            = some r2
        ∧ r2.current_disk = ((3 : ℤ) : ℚ) / (2 - 0)
        ∧ r2.current_xfer = ((4 : ℤ) : ℚ) / (2 - 0)
        ∧ r2.disk.count = r1.disk.count + 1
        ∧ r2.xfer.count = r1.xfer.count + 1 :=
  first_read_without_io envB envA [100] [100] 0 2 100 4096 stEmpty 100 "p" "p" 1 1 7 7 2 2 3 4
    (by decide) (by decide) (by decide) (by decide) rfl rfl rfl rfl rfl
    (by norm_num) (by norm_num) (by norm_num)

/-- C1 counterexample: pid 100 has I/O read at t=0 with disk=1000, an
I/O-read failure at t=1 (CPU read succeeding), and an I/O read at t=2 with
disk=1400; the code computes a disk rate of (1400-1000)/(2-1) = 400 B/s at
t=2 — not the claimed (1400-1000)/2 = 200 B/s — because the stored
`PrevSample.timestamp` is refreshed to t=1 by the failed-I/O pass. -/
theorem carry_forward_span_counterexample :
    ((runSession 100 4096
      [⟨[100], ⟨fun _ => some ("p", 1, 0, 1), fun _ => some (1000, 1000)⟩, 0⟩,
       ⟨[100], ⟨fun _ => some ("p", 1, 10, 1), fun _ => none⟩, 1⟩,
       ⟨[100], ⟨fun _ => some ("p", 1, 20, 1), fun _ => some (1400, 1400)⟩,
         2⟩]).stats_by_pid.lookup 100).map ProcessStats.current_disk = some 400
  ∧ ((400 : ℚ) ≠ 200) := by
  constructor
  · norm_num [runSession, sample_once, samplePid, updateDict, MetricAccumulator.add,
      List.lookup_cons]
  · norm_num

/-- C1 amended: in the same scenario, the disk (and xfer) rate computed at t2
uses the last successful I/O snapshot's byte values, but only over the
interval since the last successful stat read (whose carry-forward refreshed
the stored timestamp): the rate is `(D2 - D0) / (t2 - t1)`, not
`(D2 - D0) / (t2 - t0)`. -/
theorem carry_forward_uses_last_io_snapshot (t0 t1 t2 clk : ℚ)
    (c0 c1 c2 D0 X0 D2 X2 rss pg : ℤ)
    (h01 : t0 < t1) (h12 : t1 < t2) (hD : D0 ≤ D2) (hX : X0 ≤ X2) :
    ((runSession clk pg
      [⟨[100], ⟨fun _ => some ("p", 1, c0, rss), fun _ => some (D0, X0)⟩, t0⟩,
       ⟨[100], ⟨fun _ => some ("p", 1, c1, rss), fun _ => none⟩, t1⟩,
       ⟨[100], ⟨fun _ => some ("p", 1, c2, rss), fun _ => some (D2, X2)⟩,
         t2⟩]).stats_by_pid.lookup 100).map ProcessStats.current_disk
      = some (((D2 - D0 : ℤ) : ℚ) / (t2 - t1))
  ∧ ((runSession clk pg
      [⟨[100], ⟨fun _ => some ("p", 1, c0, rss), fun _ => some (D0, X0)⟩, t0⟩,
       ⟨[100], ⟨fun _ => some ("p", 1, c1, rss), fun _ => none⟩, t1⟩,
       ⟨[100], ⟨fun _ => some ("p", 1, c2, rss), fun _ => some (D2, X2)⟩,
         t2⟩]).stats_by_pid.lookup 100).map ProcessStats.current_xfer
      = some (((X2 - X0 : ℤ) : ℚ) / (t2 - t1)) := by
  have hp01 : (0 : ℚ) < t1 - t0 := sub_pos.mpr h01
  have hp12 : (0 : ℚ) < t2 - t1 := sub_pos.mpr h12
  have hDQ : (0 : ℚ) ≤ ((D2 - D0 : ℤ) : ℚ) := by exact_mod_cast sub_nonneg.mpr hD
  have hXQ : (0 : ℚ) ≤ ((X2 - X0 : ℤ) : ℚ) := by exact_mod_cast sub_nonneg.mpr hX
  simp only [runSession, List.foldl, sample_once, List.isEmpty, samplePid, updateDict,
    List.lookup, beq_self_eq_true, Option.map_some', Option.map_none', Option.isSome_some,
    Option.isSome_none, Bool.or_self, Bool.or_false, Bool.false_or, if_true, if_false,
    Option.getD_some, Option.getD_none, Option.some.injEq, ite_self, hp01, hp12]
  constructor
  · exact max_eq_right (div_nonneg hDQ hp12.le)
  · exact max_eq_right (div_nonneg hXQ hp12.le)

theorem carry_forward_uses_last_io_snapshot_witness :
    ((runSession 100 4096
      [⟨[100], ⟨fun _ => some ("p", 1, 0, 1), fun _ => some (1000, 1000)⟩, 0⟩,
       ⟨[100], ⟨fun _ => some ("p", 1, 10, 1), fun _ => none⟩, 1⟩,
       ⟨[100], ⟨fun _ => some ("p", 1, 20, 1), fun _ => some (1400, 1400)⟩,
         2⟩]).stats_by_pid.lookup 100).map ProcessStats.current_disk
      = some (((1400 - 1000 : ℤ) : ℚ) / (2 - 1))
  ∧ ((runSession 100 4096
      [⟨[100], ⟨fun _ => some ("p", 1, 0, 1), fun _ => some (1000, 1000)⟩, 0⟩,
       ⟨[100], ⟨fun _ => some ("p", 1, 10, 1), fun _ => none⟩, 1⟩,
       ⟨[100], ⟨fun _ => some ("p", 1, 20, 1), fun _ => some (1400, 1400)⟩,
         2⟩]).stats_by_pid.lookup 100).map ProcessStats.current_xfer
      = some (((1400 - 1000 : ℤ) : ℚ) / (2 - 1)) :=
  carry_forward_uses_last_io_snapshot 0 1 2 100 0 10 20 1000 1000 1400 1400 1 4096
    (by norm_num) (by norm_num) (by norm_num) (by norm_num)

/-- C10: a session whose tracked-pid set is empty on every pass creates no
process record: the final report has zero entries and the program exits with
the distinct no-data code 1 — non-zero, non-crashing, and different from the
success exit 0 produced whenever at least one record was collected. -/
theorem no_data_session (clk_tck : ℚ) (page_size : ℤ) (passes : List Pass)
    (h : ∀ p ∈ passes, p.tracked = []) :
    finalReport (runSession clk_tck page_size passes) = []
  ∧ mainExit (runSession clk_tck page_size passes) = 1
  ∧ mainExit (runSession clk_tck page_size passes) ≠ 0
  ∧ (∀ st : SampleState, st.stats_by_pid ≠ [] → mainExit st = 0) := by
  have hfold : ∀ (ps : List Pass), (∀ p ∈ ps, p.tracked = []) → ∀ st : SampleState,
      ps.foldl (fun st p => (sample_once p.env p.tracked p.now clk_tck page_size st).1) st
        = st := by
    intro ps
    induction ps with
    | nil => intro _ st; rfl
    | cons a tl ih =>
      intro hall st
      rw [List.foldl_cons]
      have ha : a.tracked = [] := hall a (List.mem_cons_self a tl)
      have hstep : (sample_once a.env a.tracked a.now clk_tck page_size st).1 = st := by
        rw [ha]; rfl
      rw [hstep]
      exact ih (fun p hp => hall p (List.mem_cons_of_mem a hp)) st
  have hrun : runSession clk_tck page_size passes = ⟨[], []⟩ := by
    unfold runSession
    exact hfold passes h ⟨[], []⟩
  rw [hrun]
  refine ⟨rfl, rfl, by decide, ?_⟩
  intro st hne
  unfold mainExit
  cases hst : st.stats_by_pid with
  | nil => exact absurd hst hne
  | cons a tl => rfl

theorem no_data_session_witness :
    finalReport (runSession 100 4096 [⟨[], ⟨fun _ => none, fun _ => none⟩, 0⟩]) = []
  ∧ mainExit (runSession 100 4096 [⟨[], ⟨fun _ => none, fun _ => none⟩, 0⟩]) = 1
  ∧ mainExit (runSession 100 4096 [⟨[], ⟨fun _ => none, fun _ => none⟩, 0⟩]) ≠ 0
  ∧ (∀ st : SampleState, st.stats_by_pid ≠ [] → mainExit st = 0) :=
  no_data_session 100 4096 [⟨[], ⟨fun _ => none, fun _ => none⟩, 0⟩]
    (by intro p hp; rw [List.mem_singleton] at hp; rw [hp])
